import Mathlib

/-!
Verification of the quantum tic-tac-toe rules engine
(`src/townService/src/town/games/QuantumTicTacToeGame.ts`, first revision,
the one the specification adopts).

The orchestrator (`QuantumTicTacToeGame`) is translated directly from the
source.  The single-board engine (`TicTacToeGame`) and the generic `Game`
base class are not part of the provided sources (only their callers are),
so the board engine is modelled from the specification, §4.1
(SingleBoardEngine); each such definition carries a doc comment starting
with `Modelled from the spec:`.

Machine representation choices:
  - player identifiers are `Nat` (opaque ids in the source);
  - the 3×3 grids (cells, visibility) are total functions
    `Fin 3 → Fin 3 → _`, matching the always-3×3 arrays of the source;
  - the sentinel pass move `row = col = -1` of the source is represented by
    the tagged variant `SubMove.pass`, exactly as the specification's design
    notes (§9) describe the intended model; a pass never compares equal to a
    real coordinate, mirroring `-1 ≠ 0..2`;
  - a thrown `InvalidParametersError` is an `Option QError` result paired
    with the (unchanged) state, mirroring that the source throws before any
    mutation.
-/

namespace QT

/-- A game piece, `'X' | 'O'` in the source. -/
inductive Mark where
  | X : Mark
  | O : Mark
deriving DecidableEq

/-- Status of a match or of a single board: `'WAITING_TO_START' | 'IN_PROGRESS' | 'OVER'`. -/
inductive GStatus where
  | waitingToStart : GStatus
  | inProgress : GStatus
  | over : GStatus
deriving DecidableEq

/-- The three board labels `'A' | 'B' | 'C'`. -/
inductive BoardId where
  | A : BoardId
  | B : BoardId
  | C : BoardId
deriving DecidableEq

/-- Opaque player identifier. -/
abbrev Player : Type := Nat

/-- An entry of a single board's local move log.  The source stores
`{row, col, gamePiece}` where a synthesized pass has `row = col = -1`;
the specification's design notes (§9) call for the tagged-variant
representation used here. -/
inductive SubMove where
  | pass (gamePiece : Mark) : SubMove
  | real (row : Fin 3) (col : Fin 3) (gamePiece : Mark) : SubMove
deriving DecidableEq

/-- The piece carried by a local log entry (`m.gamePiece` in the source). -/
def SubMove.gamePiece : SubMove → Mark
  | .pass mk => mk
  | .real _ _ mk => mk

/-- `m.col === move.col && m.row === move.row` of the source: does log entry
`m` occupy the (real) coordinate `(r, c)`?  A pass has `row = col = -1` in
the source and never matches a real coordinate. -/
def SubMove.occupies (m : SubMove) (r c : Fin 3) : Bool :=
  match m with
  | .pass _ => false
  | .real r0 c0 _ => decide (r0 = r) && decide (c0 = c)

/-- A `QuantumTicTacToeMove`: board label plus a 0..2 row/column (the wire
type restricts coordinates to `0 | 1 | 2`) and a game piece. -/
structure QMove where
  board : BoardId
  row : Fin 3
  col : Fin 3
  gamePiece : Mark
deriving DecidableEq

/-- A `GameMove<QuantumTicTacToeMove>`: submitting player plus the move
payload (the `gameID` field of the source is never consulted by the logic
and is omitted). -/
structure GameMoveArg where
  playerID : Player
  move : QMove
deriving DecidableEq

/-- The `InvalidParametersError` messages thrown by the orchestrator. -/
inductive QError where
  | playerAlreadyInGame : QError
  | gameFull : QError
  | playerNotInGame : QError
  | invalidMove : QError
  | notYourTurn : QError
  | gameNotInProgress : QError
deriving DecidableEq

/-- A 3×3 grid of cells (`none` = empty), one field per cell — the
always-3×3 board array of the source. -/
structure Grid3 where
  c00 : Option Mark
  c01 : Option Mark
  c02 : Option Mark
  c10 : Option Mark
  c11 : Option Mark
  c12 : Option Mark
  c20 : Option Mark
  c21 : Option Mark
  c22 : Option Mark
deriving DecidableEq

/-- Read the grid cell at `(r, c)`. -/
def Grid3.get (g : Grid3) : Fin 3 → Fin 3 → Option Mark
  | 0, 0 => g.c00
  | 0, 1 => g.c01
  | 0, 2 => g.c02
  | 1, 0 => g.c10
  | 1, 1 => g.c11
  | 1, 2 => g.c12
  | 2, 0 => g.c20
  | 2, 1 => g.c21
  | 2, 2 => g.c22

/-- Write the grid cell at `(r, c)`. -/
def Grid3.set (g : Grid3) (r c : Fin 3) (v : Option Mark) : Grid3 :=
  match r, c with
  | 0, 0 => { g with c00 := v }
  | 0, 1 => { g with c01 := v }
  | 0, 2 => { g with c02 := v }
  | 1, 0 => { g with c10 := v }
  | 1, 1 => { g with c11 := v }
  | 1, 2 => { g with c12 := v }
  | 2, 0 => { g with c20 := v }
  | 2, 1 => { g with c21 := v }
  | 2, 2 => { g with c22 := v }

/-- The empty 3×3 grid. -/
def emptyGrid : Grid3 :=
  { c00 := none, c01 := none, c02 := none, c10 := none, c11 := none,
    c12 := none, c20 := none, c21 := none, c22 := none }

/-- A 3×3 grid of visibility booleans, one field per cell — one board's
slice of the `publiclyVisible` array of the source. -/
structure Vis3 where
  v00 : Bool
  v01 : Bool
  v02 : Bool
  v10 : Bool
  v11 : Bool
  v12 : Bool
  v20 : Bool
  v21 : Bool
  v22 : Bool
deriving DecidableEq

/-- Read the visibility bit at `(r, c)`. -/
def Vis3.get (v : Vis3) : Fin 3 → Fin 3 → Bool
  | 0, 0 => v.v00
  | 0, 1 => v.v01
  | 0, 2 => v.v02
  | 1, 0 => v.v10
  | 1, 1 => v.v11
  | 1, 2 => v.v12
  | 2, 0 => v.v20
  | 2, 1 => v.v21
  | 2, 2 => v.v22

/-- Write the visibility bit at `(r, c)`. -/
def Vis3.set (v : Vis3) (r c : Fin 3) (x : Bool) : Vis3 :=
  match r, c with
  | 0, 0 => { v with v00 := x }
  | 0, 1 => { v with v01 := x }
  | 0, 2 => { v with v02 := x }
  | 1, 0 => { v with v10 := x }
  | 1, 1 => { v with v11 := x }
  | 1, 2 => { v with v12 := x }
  | 2, 0 => { v with v20 := x }
  | 2, 1 => { v with v21 := x }
  | 2, 2 => { v with v22 := x }

/-- The all-hidden 3×3 visibility grid. -/
def emptyVis : Vis3 :=
  { v00 := false, v01 := false, v02 := false, v10 := false, v11 := false,
    v12 := false, v20 := false, v21 := false, v22 := false }

/-- Modelled from the spec: the state of one `TicTacToeGame` single-board
engine (not in the provided sources).  Per §4.1 it owns a 3×3 grid, a local
move log, a terminal status and the winning seat, plus the per-player seats
filled by the propagated `join`. -/
structure TicTacToeGame where
  x : Option Player
  o : Option Player
  winner : Option Player
  status : GStatus
  moves : List SubMove
  grid : Grid3

/-- Modelled from the spec: a freshly constructed single-board engine. -/
def initialSubGame : TicTacToeGame :=
  { x := none, o := none, winner := none, status := GStatus.waitingToStart,
    moves := [], grid := emptyGrid }

/-- Place a mark at `(r, c)` on a grid. -/
def gridPlace (g : Grid3) (r c : Fin 3) (mk : Mark) : Grid3 :=
  Grid3.set g r c (some mk)

/-- Modelled from the spec: three-in-a-row for `mk` in any row, column or
diagonal (§4.1). -/
def lineWin (g : Grid3) (mk : Mark) : Bool :=
  (decide (g.c00 = some mk) && decide (g.c01 = some mk) && decide (g.c02 = some mk)) ||
  (decide (g.c10 = some mk) && decide (g.c11 = some mk) && decide (g.c12 = some mk)) ||
  (decide (g.c20 = some mk) && decide (g.c21 = some mk) && decide (g.c22 = some mk)) ||
  (decide (g.c00 = some mk) && decide (g.c10 = some mk) && decide (g.c20 = some mk)) ||
  (decide (g.c01 = some mk) && decide (g.c11 = some mk) && decide (g.c21 = some mk)) ||
  (decide (g.c02 = some mk) && decide (g.c12 = some mk) && decide (g.c22 = some mk)) ||
  (decide (g.c00 = some mk) && decide (g.c11 = some mk) && decide (g.c22 = some mk)) ||
  (decide (g.c02 = some mk) && decide (g.c11 = some mk) && decide (g.c20 = some mk))

/-- Modelled from the spec: all 9 cells filled (§4.1, draw detection). -/
def boardFull (g : Grid3) : Bool :=
  decide (g.c00 ≠ none) && decide (g.c01 ≠ none) && decide (g.c02 ≠ none) &&
  decide (g.c10 ≠ none) && decide (g.c11 ≠ none) && decide (g.c12 ≠ none) &&
  decide (g.c20 ≠ none) && decide (g.c21 ≠ none) && decide (g.c22 ≠ none)

/-- Modelled from the spec: recompute the terminal status of one board
after a real move (§4.1): a three-in-a-row makes the board won by the seat
holding that mark; a full board with no line is drawn (`winner = none`). -/
def checkBoardEnding (g : TicTacToeGame) : TicTacToeGame :=
  if lineWin g.grid Mark.X = true then
    { g with status := GStatus.over, winner := g.x }
  else if lineWin g.grid Mark.O = true then
    { g with status := GStatus.over, winner := g.o }
  else if boardFull g.grid = true then
    { g with status := GStatus.over, winner := none }
  else g

/-- Modelled from the spec: apply one move to a single-board engine.
A synthesized pass (`row = col = -1` in the source) only appends to the
local log, touches no cell and never itself triggers a terminal check
(§4.1 `applyPassMove`); a real move places the mark, appends to the log and
recomputes the terminal status (§4.1 `applyRealMove`). -/
def subApplyMove (g : TicTacToeGame) (mv : SubMove) : TicTacToeGame :=
  match mv with
  | .pass _ => { g with moves := g.moves ++ [mv] }
  | .real r c mk =>
      checkBoardEnding
        { g with moves := g.moves ++ [mv], grid := gridPlace g.grid r c mk }

/-- Modelled from the spec: the propagated `join` on a single-board engine
(base-game seating): first joiner takes X, second takes O, and the board
becomes in-progress exactly when both seats fill. -/
def subJoin (g : TicTacToeGame) (p : Player) : TicTacToeGame :=
  if g.x = none then
    joinFinish { g with x := some p }
  else if g.o = none then
    joinFinish { g with o := some p }
  else g
where
  joinFinish (g1 : TicTacToeGame) : TicTacToeGame :=
    if g1.x ≠ none ∧ g1.o ≠ none then { g1 with status := GStatus.inProgress } else g1

/-- Modelled from the spec: the propagated `leave` on a single-board engine
(the spec only says `leave` is propagated; modelled as the base single-board
behavior: a terminal board is unchanged, an unstarted board fully resets,
and an in-progress board ends with the remaining seat as winner). -/
def subLeave (g : TicTacToeGame) (p : Player) : TicTacToeGame :=
  if g.status = GStatus.over then g
  else if g.o = none then initialSubGame
  else if g.x = some p then { g with status := GStatus.over, winner := g.o }
  else { g with status := GStatus.over, winner := g.x }

/-- The `publiclyVisible` map: one 3×3 boolean grid per board. -/
structure VisMap where
  A : Vis3
  B : Vis3
  C : Vis3

/-- `publiclyVisible[b]`. -/
def getVis (v : VisMap) : BoardId → Vis3
  | .A => v.A
  | .B => v.B
  | .C => v.C

/-- `publiclyVisible[b][r][c] = true` (in-place mutation in the source). -/
def setVisMap (v : VisMap) (b : BoardId) (r c : Fin 3) : VisMap :=
  match b with
  | .A => { v with A := Vis3.set v.A r c true }
  | .B => { v with B := Vis3.set v.B r c true }
  | .C => { v with C := Vis3.set v.C r c true }

/-- The all-`false` visibility map the constructor (and the
waiting-to-start reset) installs. -/
def initialVisMap : VisMap :=
  { A := emptyVis, B := emptyVis, C := emptyVis }

/-- The `_games` record: one engine per board label. -/
structure SubGames where
  A : TicTacToeGame
  B : TicTacToeGame
  C : TicTacToeGame

/-- `this._games[b]`. -/
def getGame (g : SubGames) : BoardId → TicTacToeGame
  | .A => g.A
  | .B => g.B
  | .C => g.C

/-- `Object.values(this._games).forEach` applying the same update to each
engine. -/
def mapGames (f : TicTacToeGame → TicTacToeGame) (g : SubGames) : SubGames :=
  { A := f g.A, B := f g.B, C := f g.C }

/-- `Object.values(this._games).forEach` applying a board-label-aware
update to each engine. -/
def mapGamesIdx (f : BoardId → TicTacToeGame → TicTacToeGame) (g : SubGames) : SubGames :=
  { A := f BoardId.A g.A, B := f BoardId.B g.B, C := f BoardId.C g.C }

/-- The list of the three engines in `Object.values` order. -/
def gamesList (g : SubGames) : List TicTacToeGame :=
  [g.A, g.B, g.C]

/-- The complete state of a `QuantumTicTacToeGame` instance: the externally
observable `this.state` (seats, winner, status, global move log, scores,
visibility map) together with the private fields `_games`, `_xScore`,
`_oScore` (mirrored here as `xScoreI`/`oScoreI`) and `_moveCount`. -/
structure QGame where
  x : Option Player
  o : Option Player
  winner : Option Player
  status : GStatus
  moves : List QMove
  xScore : Nat
  oScore : Nat
  xScoreI : Nat
  oScoreI : Nat
  publiclyVisible : VisMap
  games : SubGames
  moveCount : Nat

/-- The constructor's initial state. -/
def initialQGame : QGame :=
  { x := none, o := none, winner := none, status := GStatus.waitingToStart,
    moves := [], xScore := 0, oScore := 0, xScoreI := 0, oScoreI := 0,
    publiclyVisible := initialVisMap,
    games := { A := initialSubGame, B := initialSubGame, C := initialSubGame },
    moveCount := 0 }

/-- `this.state.publiclyVisible[b][r][c]`. -/
def visAt (s : QGame) (b : BoardId) (r c : Fin 3) : Bool :=
  Vis3.get (getVis s.publiclyVisible b) r c

/-- `_join(player)`: reject a seated player, seat as X first then O (also
propagating `join` to the three engines), reject when full, and flip the
status to in-progress once both seats are occupied. -/
def qJoin (s : QGame) (p : Player) : QGame × Option QError :=
  if s.x = some p ∨ s.o = some p then (s, some QError.playerAlreadyInGame)
  else if s.x = none then
    (joinStatusUpdate { s with x := some p, games := mapGames (fun g => subJoin g p) s.games }, none)
  else if s.o = none then
    (joinStatusUpdate { s with o := some p, games := mapGames (fun g => subJoin g p) s.games }, none)
  else (s, some QError.gameFull)
where
  joinStatusUpdate (s1 : QGame) : QGame :=
    if s1.x ≠ none ∧ s1.o ≠ none then { s1 with status := GStatus.inProgress } else s1

/-- `_leave(player)`: reject an unseated player; in progress, the remaining
player wins, the departing seat is vacated and `leave` is propagated to the
engines; while waiting to start, a departing X player causes a full state
reset (note the private `_moveCount`, `_xScore`, `_oScore` are *not* reset
by the source); in every other case the call silently does nothing. -/
def qLeave (s : QGame) (p : Player) : QGame × Option QError :=
  if s.x ≠ some p ∧ s.o ≠ some p then (s, some QError.playerNotInGame)
  else if s.status = GStatus.inProgress then
    if s.x = some p then
      ({ s with status := GStatus.over, winner := s.o, x := none,
                games := mapGames (fun g => subLeave g p) s.games }, none)
    else
      ({ s with status := GStatus.over, winner := s.x, o := none,
                games := mapGames (fun g => subLeave g p) s.games }, none)
  else if s.status = GStatus.waitingToStart then
    if s.x = some p then
      ({ s with moves := [], status := GStatus.waitingToStart, xScore := 0, oScore := 0,
                publiclyVisible := initialVisMap, x := none, o := none,
                games := mapGames (fun g => subLeave g p) s.games }, none)
    else (s, none)
  else (s, none)

/-- The board is `OVER` with a non-empty local log: permanently closed
(`_validateMove`, first check). -/
def boardClosed (g : TicTacToeGame) : Bool :=
  decide (g.status = GStatus.over) && decide (g.moves ≠ [])

/-- The occupied-cell conflict of `_validateMove`: some local log entry
occupies the targeted cell and the cell is publicly visible or already
bears the mover's own mark. -/
def occupiedConflict (s : QGame) (b : BoardId) (row col : Fin 3) (piece : Mark) : Bool :=
  (getGame s.games b).moves.any fun m =>
    m.occupies row col && (visAt s b row col || decide (m.gamePiece = piece))

/-- `_validateMove`, in source order: (1) targeted board terminal with
recorded moves, (2) occupied-cell conflict, (3) turn parity against the
global `_moveCount`, (4) match must be in progress. -/
def validateMove (s : QGame) (b : BoardId) (row col : Fin 3) (piece : Mark) : Option QError :=
  if boardClosed (getGame s.games b) = true then some QError.invalidMove
  else if occupiedConflict s b row col piece = true then some QError.invalidMove
  else if piece ≠ (if s.moveCount % 2 = 0 then Mark.X else Mark.O) then some QError.notYourTurn
  else if s.status ≠ GStatus.inProgress then some QError.gameNotInProgress
  else none

/-- `_applyMoveWithBlanks(targetGame, move)`: every engine still in
progress receives something — the target its move `mv`, each other board a
synthesized pass carrying `mv`'s piece; engines not in progress are
skipped entirely. -/
def applyMoveWithBlanks (s : QGame) (b : BoardId) (mv : SubMove) : QGame :=
  { s with games := mapGamesIdx (fun bid g =>
      if g.status = GStatus.inProgress then
        if bid = b then subApplyMove g mv
        else subApplyMove g (SubMove.pass mv.gamePiece)
      else g) s.games }

/-- `move.playerID === this.state.x ? 'X' : 'O'`: the mark is derived from
the submitting player's seat, never from the caller-supplied field. -/
def resolvedPiece (s : QGame) (p : Player) : Mark :=
  if s.x = some p then Mark.X else Mark.O

/-- The post-validation body of `applyMove`: find the first log entry
occupying the targeted cell; when one exists and the cell is not yet
publicly visible, the move is a collision — the visibility flag is set,
the incoming move is appended to the global log, `_moveCount` advances,
and the target board receives a synthesized pass carrying the
pre-existing mark; otherwise the move is applied normally. -/
def applyAccepted (s : QGame) (b : BoardId) (row col : Fin 3) (piece : Mark) : QGame :=
  match (getGame s.games b).moves.find? (fun m => m.occupies row col) with
  | some m =>
      if visAt s b row col = false then
        applyMoveWithBlanks
          { s with publiclyVisible := setVisMap s.publiclyVisible b row col,
                   moveCount := s.moveCount + 1,
                   moves := s.moves ++ [{ board := b, row := row, col := col, gamePiece := piece }] }
          b (SubMove.pass m.gamePiece)
      else
        applyMoveWithBlanks
          { s with moves := s.moves ++ [{ board := b, row := row, col := col, gamePiece := piece }],
                   moveCount := s.moveCount + 1 }
          b (SubMove.real row col piece)
  | none =>
      applyMoveWithBlanks
        { s with moves := s.moves ++ [{ board := b, row := row, col := col, gamePiece := piece }],
                 moveCount := s.moveCount + 1 }
        b (SubMove.real row col piece)

/-- `_checkForWins`: recompute both scores from the board outcomes — a
board counts for X when it is `OVER` and its winner equals the X seat,
else for O when its winner equals the O seat; both the observable scores
and the private `_xScore`/`_oScore` are overwritten. -/
def checkForWins (s : QGame) : QGame :=
  { s with
    xScore := (gamesList s.games).countP
      (fun g => decide (g.status = GStatus.over ∧ g.winner = s.x)),
    oScore := (gamesList s.games).countP
      (fun g => decide (g.status = GStatus.over ∧ ¬ g.winner = s.x ∧ g.winner = s.o)),
    xScoreI := (gamesList s.games).countP
      (fun g => decide (g.status = GStatus.over ∧ g.winner = s.x)),
    oScoreI := (gamesList s.games).countP
      (fun g => decide (g.status = GStatus.over ∧ ¬ g.winner = s.x ∧ g.winner = s.o)) }

/-- All three engines are terminal. -/
def allBoardsOver (g : SubGames) : Bool :=
  (gamesList g).all (fun t => decide (t.status = GStatus.over))

/-- `_checkForGameEnding`: when every board is `OVER` the match becomes
`OVER` with winner the seat holding the strictly higher private score (or
unset on a tie); otherwise nothing changes. -/
def checkForGameEnding (s : QGame) : QGame :=
  if allBoardsOver s.games = true then
    { s with status := GStatus.over,
             winner := if s.xScoreI > s.oScoreI then s.x
                       else if s.xScoreI < s.oScoreI then s.o
                       else none }
  else s

/-- `applyMove(move)`: resolve the mark from the submitting player's seat
(overwriting the caller-supplied field), validate, mutate (collision or
normal application plus synthesized passes), then recompute scores and
match termination.  The source throws before any state mutation, so a
rejection returns the input state unchanged. -/
def applyMove (s : QGame) (gm : GameMoveArg) : QGame × Option QError :=
  match validateMove s gm.move.board gm.move.row gm.move.col (resolvedPiece s gm.playerID) with
  | some e => (s, some e)
  | none =>
      (checkForGameEnding (checkForWins
        (applyAccepted s gm.move.board gm.move.row gm.move.col (resolvedPiece s gm.playerID))), none)

end QT

namespace QT

/-! ### Projection lemmas for the elementary state transformers -/

theorem getGame_mapGames (f : TicTacToeGame → TicTacToeGame) (g : SubGames) (b : BoardId) :
    getGame (mapGames f g) b = f (getGame g b) := by
  cases b <;> rfl

theorem getGame_mapGamesIdx (f : BoardId → TicTacToeGame → TicTacToeGame) (g : SubGames)
    (b : BoardId) : getGame (mapGamesIdx f g) b = f b (getGame g b) := by
  cases b <;> rfl

theorem checkBoardEnding_moves (g : TicTacToeGame) : (checkBoardEnding g).moves = g.moves := by
  unfold checkBoardEnding
  split
  · rfl
  · split
    · rfl
    · split <;> rfl

theorem checkBoardEnding_x (g : TicTacToeGame) : (checkBoardEnding g).x = g.x := by
  unfold checkBoardEnding
  split
  · rfl
  · split
    · rfl
    · split <;> rfl

theorem checkBoardEnding_o (g : TicTacToeGame) : (checkBoardEnding g).o = g.o := by
  unfold checkBoardEnding
  split
  · rfl
  · split
    · rfl
    · split <;> rfl

theorem subApplyMove_moves (g : TicTacToeGame) (mv : SubMove) :
    (subApplyMove g mv).moves = g.moves ++ [mv] := by
  cases mv with
  | pass mk => rfl
  | real r c mk => simpa [subApplyMove] using checkBoardEnding_moves _

theorem subApplyMove_x (g : TicTacToeGame) (mv : SubMove) : (subApplyMove g mv).x = g.x := by
  cases mv with
  | pass mk => rfl
  | real r c mk => simpa [subApplyMove] using checkBoardEnding_x _

theorem subApplyMove_o (g : TicTacToeGame) (mv : SubMove) : (subApplyMove g mv).o = g.o := by
  cases mv with
  | pass mk => rfl
  | real r c mk => simpa [subApplyMove] using checkBoardEnding_o _

theorem subApplyMove_pass (g : TicTacToeGame) (mk : Mark) :
    subApplyMove g (SubMove.pass mk) = { g with moves := g.moves ++ [SubMove.pass mk] } := rfl

theorem subJoin_moves (g : TicTacToeGame) (p : Player) : (subJoin g p).moves = g.moves := by
  unfold subJoin subJoin.joinFinish
  split
  · split <;> rfl
  · split
    · split <;> rfl
    · rfl

theorem subLeave_cases (g : TicTacToeGame) (p : Player) :
    (g.status = GStatus.over ∧ subLeave g p = g) ∨
    (g.o = none ∧ subLeave g p = initialSubGame) ∨
    ((subLeave g p).moves = g.moves ∧ (subLeave g p).o = g.o ∧ g.o ≠ none ∧
      (subLeave g p).status = GStatus.over) := by
  unfold subLeave
  split
  next h => exact Or.inl ⟨h, rfl⟩
  next h =>
    split
    next h2 => exact Or.inr (Or.inl ⟨h2, rfl⟩)
    next h2 =>
      split
      · exact Or.inr (Or.inr ⟨rfl, rfl, h2, rfl⟩)
      · exact Or.inr (Or.inr ⟨rfl, rfl, h2, rfl⟩)

/-! #### Visibility map lemmas -/

theorem Vis3.get_set_self (v : Vis3) (r c : Fin 3) :
    Vis3.get (Vis3.set v r c true) r c = true := by
  fin_cases r <;> fin_cases c <;> rfl

theorem Vis3.get_set_mono (v : Vis3) (r c r' c' : Fin 3) (h : Vis3.get v r' c' = true) :
    Vis3.get (Vis3.set v r c true) r' c' = true := by
  fin_cases r <;> fin_cases c <;> fin_cases r' <;> fin_cases c' <;>
    simp_all [Vis3.get, Vis3.set]

theorem Vis3.get_set_cases (v : Vis3) (r c r' c' : Fin 3)
    (h : Vis3.get (Vis3.set v r c true) r' c' = true) :
    Vis3.get v r' c' = true ∨ (r' = r ∧ c' = c) := by
  fin_cases r <;> fin_cases c <;> fin_cases r' <;> fin_cases c' <;>
    simp_all [Vis3.get, Vis3.set]

theorem getVis_setVisMap_self (v : VisMap) (b : BoardId) (r c : Fin 3) :
    Vis3.get (getVis (setVisMap v b r c) b) r c = true := by
  cases b <;> exact Vis3.get_set_self _ r c

theorem getVis_setVisMap_mono (v : VisMap) (b b' : BoardId) (r c r' c' : Fin 3)
    (h : Vis3.get (getVis v b') r' c' = true) :
    Vis3.get (getVis (setVisMap v b r c) b') r' c' = true := by
  cases b <;> cases b' <;>
    first
      | exact h
      | exact Vis3.get_set_mono _ r c r' c' h

theorem getVis_setVisMap_cases (v : VisMap) (b b' : BoardId) (r c r' c' : Fin 3)
    (h : Vis3.get (getVis (setVisMap v b r c) b') r' c' = true) :
    Vis3.get (getVis v b') r' c' = true ∨ (b' = b ∧ r' = r ∧ c' = c) := by
  cases b <;> cases b' <;>
    first
      | exact Or.inl h
      | (rcases Vis3.get_set_cases _ r c r' c' h with hOld | ⟨hr, hc⟩
         exacts [Or.inl hOld, Or.inr ⟨rfl, hr, hc⟩])

/-! #### `applyMoveWithBlanks` lemmas -/

theorem blanks_getGame (s : QGame) (b : BoardId) (mv : SubMove) (b' : BoardId) :
    getGame (applyMoveWithBlanks s b mv).games b' =
      (if (getGame s.games b').status = GStatus.inProgress then
        (if b' = b then subApplyMove (getGame s.games b') mv
         else subApplyMove (getGame s.games b') (SubMove.pass mv.gamePiece))
      else getGame s.games b') := by
  show getGame (mapGamesIdx _ s.games) b' = _
  rw [getGame_mapGamesIdx]

theorem blanks_publiclyVisible (s : QGame) (b : BoardId) (mv : SubMove) :
    (applyMoveWithBlanks s b mv).publiclyVisible = s.publiclyVisible := rfl

theorem blanks_moves (s : QGame) (b : BoardId) (mv : SubMove) :
    (applyMoveWithBlanks s b mv).moves = s.moves := rfl

theorem blanks_moveCount (s : QGame) (b : BoardId) (mv : SubMove) :
    (applyMoveWithBlanks s b mv).moveCount = s.moveCount := rfl

theorem blanks_status (s : QGame) (b : BoardId) (mv : SubMove) :
    (applyMoveWithBlanks s b mv).status = s.status := rfl

theorem blanks_x (s : QGame) (b : BoardId) (mv : SubMove) :
    (applyMoveWithBlanks s b mv).x = s.x := rfl

theorem blanks_o (s : QGame) (b : BoardId) (mv : SubMove) :
    (applyMoveWithBlanks s b mv).o = s.o := rfl

end QT

namespace QT

/-! #### `checkForWins` and `checkForGameEnding` lemmas -/

theorem cw_games (s : QGame) : (checkForWins s).games = s.games := rfl

theorem cw_status (s : QGame) : (checkForWins s).status = s.status := rfl

theorem cw_moves (s : QGame) : (checkForWins s).moves = s.moves := rfl

theorem cw_moveCount (s : QGame) : (checkForWins s).moveCount = s.moveCount := rfl

theorem cw_publiclyVisible (s : QGame) : (checkForWins s).publiclyVisible = s.publiclyVisible := rfl

theorem cw_x (s : QGame) : (checkForWins s).x = s.x := rfl

theorem cw_o (s : QGame) : (checkForWins s).o = s.o := rfl

theorem cw_xScore (s : QGame) :
    (checkForWins s).xScore =
      (gamesList s.games).countP (fun g => decide (g.status = GStatus.over ∧ g.winner = s.x)) := rfl

theorem cw_oScore (s : QGame) :
    (checkForWins s).oScore =
      (gamesList s.games).countP
        (fun g => decide (g.status = GStatus.over ∧ ¬ g.winner = s.x ∧ g.winner = s.o)) := rfl

theorem cw_xScoreI (s : QGame) : (checkForWins s).xScoreI = (checkForWins s).xScore := rfl

theorem cw_oScoreI (s : QGame) : (checkForWins s).oScoreI = (checkForWins s).oScore := rfl

theorem ce_games (s : QGame) : (checkForGameEnding s).games = s.games := by
  unfold checkForGameEnding; split <;> rfl

theorem ce_moves (s : QGame) : (checkForGameEnding s).moves = s.moves := by
  unfold checkForGameEnding; split <;> rfl

theorem ce_moveCount (s : QGame) : (checkForGameEnding s).moveCount = s.moveCount := by
  unfold checkForGameEnding; split <;> rfl

theorem ce_publiclyVisible (s : QGame) :
    (checkForGameEnding s).publiclyVisible = s.publiclyVisible := by
  unfold checkForGameEnding; split <;> rfl

theorem ce_x (s : QGame) : (checkForGameEnding s).x = s.x := by
  unfold checkForGameEnding; split <;> rfl

theorem ce_o (s : QGame) : (checkForGameEnding s).o = s.o := by
  unfold checkForGameEnding; split <;> rfl

theorem ce_xScore (s : QGame) : (checkForGameEnding s).xScore = s.xScore := by
  unfold checkForGameEnding; split <;> rfl

theorem ce_oScore (s : QGame) : (checkForGameEnding s).oScore = s.oScore := by
  unfold checkForGameEnding; split <;> rfl

theorem ce_of_over (s : QGame) (h : allBoardsOver s.games = true) :
    checkForGameEnding s =
      { s with status := GStatus.over,
               winner := if s.xScoreI > s.oScoreI then s.x
                         else if s.xScoreI < s.oScoreI then s.o
                         else none } := by
  unfold checkForGameEnding; rw [if_pos h]

theorem ce_of_not_over (s : QGame) (h : ¬ allBoardsOver s.games = true) :
    checkForGameEnding s = s := by
  unfold checkForGameEnding; rw [if_neg h]

/-! #### `applyAccepted` lemmas -/

theorem aa_moves (s : QGame) (b : BoardId) (row col : Fin 3) (piece : Mark) :
    (applyAccepted s b row col piece).moves =
      s.moves ++ [{ board := b, row := row, col := col, gamePiece := piece }] := by
  unfold applyAccepted
  split
  · split <;> rfl
  · rfl

theorem aa_moveCount (s : QGame) (b : BoardId) (row col : Fin 3) (piece : Mark) :
    (applyAccepted s b row col piece).moveCount = s.moveCount + 1 := by
  unfold applyAccepted
  split
  · split <;> rfl
  · rfl

theorem aa_status (s : QGame) (b : BoardId) (row col : Fin 3) (piece : Mark) :
    (applyAccepted s b row col piece).status = s.status := by
  unfold applyAccepted
  split
  · split <;> rfl
  · rfl

theorem aa_x (s : QGame) (b : BoardId) (row col : Fin 3) (piece : Mark) :
    (applyAccepted s b row col piece).x = s.x := by
  unfold applyAccepted
  split
  · split <;> rfl
  · rfl

theorem aa_o (s : QGame) (b : BoardId) (row col : Fin 3) (piece : Mark) :
    (applyAccepted s b row col piece).o = s.o := by
  unfold applyAccepted
  split
  · split <;> rfl
  · rfl

theorem aa_vis_cases (s : QGame) (b : BoardId) (row col : Fin 3) (piece : Mark)
    (b' : BoardId) (r' c' : Fin 3)
    (h : visAt (applyAccepted s b row col piece) b' r' c' = true) :
    visAt s b' r' c' = true ∨
    (b' = b ∧ r' = row ∧ c' = col ∧
      ∃ m, (getGame s.games b).moves.find? (fun mm => mm.occupies row col) = some m) := by
  unfold applyAccepted at h
  revert h
  split
  next m heq =>
    split
    · intro h
      have h2 : Vis3.get (getVis (setVisMap s.publiclyVisible b row col) b') r' c' = true := h
      rcases getVis_setVisMap_cases _ _ _ _ _ _ _ h2 with hOld | ⟨hb, hr, hc⟩
      · exact Or.inl hOld
      · exact Or.inr ⟨hb, hr, hc, m, heq⟩
    · intro h; exact Or.inl h
  · intro h; exact Or.inl h

theorem aa_vis_mono (s : QGame) (b : BoardId) (row col : Fin 3) (piece : Mark)
    (b' : BoardId) (r' c' : Fin 3) (h : visAt s b' r' c' = true) :
    visAt (applyAccepted s b row col piece) b' r' c' = true := by
  unfold applyAccepted
  split
  · split
    · exact getVis_setVisMap_mono _ _ _ _ _ _ _ h
    · exact h
  · exact h

theorem aa_games_cases (s : QGame) (b : BoardId) (row col : Fin 3) (piece : Mark)
    (b' : BoardId) :
    getGame (applyAccepted s b row col piece).games b' = getGame s.games b' ∨
    ((getGame s.games b').status = GStatus.inProgress ∧
      ∃ mv, getGame (applyAccepted s b row col piece).games b' =
        subApplyMove (getGame s.games b') mv) := by
  unfold applyAccepted
  split
  · split
    · rw [blanks_getGame]
      split
      next h =>
        split
        · exact Or.inr ⟨h, _, rfl⟩
        · exact Or.inr ⟨h, _, rfl⟩
      next h => exact Or.inl rfl
    · rw [blanks_getGame]
      split
      next h =>
        split
        · exact Or.inr ⟨h, _, rfl⟩
        · exact Or.inr ⟨h, _, rfl⟩
      next h => exact Or.inl rfl
  · rw [blanks_getGame]
    split
    next h =>
      split
      · exact Or.inr ⟨h, _, rfl⟩
      · exact Or.inr ⟨h, _, rfl⟩
    next h => exact Or.inl rfl

/-! #### `validateMove` and `applyMove` decomposition lemmas -/

theorem validate_none (s : QGame) (b : BoardId) (row col : Fin 3) (piece : Mark)
    (h : validateMove s b row col piece = none) :
    boardClosed (getGame s.games b) = false ∧
    occupiedConflict s b row col piece = false ∧
    piece = (if s.moveCount % 2 = 0 then Mark.X else Mark.O) ∧
    s.status = GStatus.inProgress := by
  unfold validateMove at h
  by_cases h1 : boardClosed (getGame s.games b) = true
  · rw [if_pos h1] at h; exact absurd h (by simp)
  rw [if_neg h1] at h
  by_cases h2 : occupiedConflict s b row col piece = true
  · rw [if_pos h2] at h; exact absurd h (by simp)
  rw [if_neg h2] at h
  by_cases h3 : piece ≠ (if s.moveCount % 2 = 0 then Mark.X else Mark.O)
  · rw [if_pos h3] at h; exact absurd h (by simp)
  rw [if_neg h3] at h
  by_cases h4 : s.status ≠ GStatus.inProgress
  · rw [if_pos h4] at h; exact absurd h (by simp)
  refine ⟨by simpa using h1, by simpa using h2, by simpa using h3, by simpa using h4⟩

theorem validate_some_of_not_inProgress (s : QGame) (b : BoardId) (row col : Fin 3)
    (piece : Mark) (h : ¬ s.status = GStatus.inProgress) :
    (validateMove s b row col piece).isSome = true := by
  unfold validateMove
  by_cases h1 : boardClosed (getGame s.games b) = true
  · rw [if_pos h1]; rfl
  rw [if_neg h1]
  by_cases h2 : occupiedConflict s b row col piece = true
  · rw [if_pos h2]; rfl
  rw [if_neg h2]
  by_cases h3 : piece ≠ (if s.moveCount % 2 = 0 then Mark.X else Mark.O)
  · rw [if_pos h3]; rfl
  rw [if_neg h3]
  rw [if_pos h]; rfl

theorem applyMove_snd (s : QGame) (gm : GameMoveArg) :
    (applyMove s gm).2 =
      validateMove s gm.move.board gm.move.row gm.move.col (resolvedPiece s gm.playerID) := by
  unfold applyMove
  split
  next e heq => simp [heq]
  next heq => simp [heq]

theorem applyMove_ok (s : QGame) (gm : GameMoveArg) (h : (applyMove s gm).2 = none) :
    (applyMove s gm).1 =
      checkForGameEnding (checkForWins
        (applyAccepted s gm.move.board gm.move.row gm.move.col (resolvedPiece s gm.playerID))) := by
  have hv : validateMove s gm.move.board gm.move.row gm.move.col (resolvedPiece s gm.playerID)
      = none := by rw [← applyMove_snd]; exact h
  unfold applyMove
  simp [hv]

theorem applyMove_err (s : QGame) (gm : GameMoveArg) (h : (applyMove s gm).2 ≠ none) :
    (applyMove s gm).1 = s := by
  unfold applyMove at *
  revert h
  split
  · intro _; rfl
  next heq => intro h; simp at h

end QT

namespace QT

theorem ce_status_cases (s : QGame) :
    (checkForGameEnding s).status = s.status ∨ (checkForGameEnding s).status = GStatus.over := by
  unfold checkForGameEnding
  split
  · exact Or.inr rfl
  · exact Or.inl rfl

theorem visAt_eq_of (s1 s2 : QGame) (h : s1.publiclyVisible = s2.publiclyVisible)
    (b : BoardId) (r c : Fin 3) : visAt s1 b r c = visAt s2 b r c := by
  unfold visAt; rw [h]

theorem getVis_initial (b : BoardId) (r c : Fin 3) :
    Vis3.get (getVis initialVisMap b) r c = false := by
  cases b <;> fin_cases r <;> fin_cases c <;> rfl

/-! ### Reachability and the inductive invariants -/

/-- The waiting-to-start state carries no visible cell, an untouched global
log and a zero `_moveCount`. -/
def InvWaiting (s : QGame) : Prop :=
  s.status = GStatus.waitingToStart →
    (∀ b r c, visAt s b r c = false) ∧ s.moveCount = 0 ∧ s.moves = []

/-- A publicly visible cell always has an occupying entry in its board's
local log (spec §3: visibility is only ever produced by a collision on an
occupied cell). -/
def InvVis (s : QGame) : Prop :=
  ∀ b r c, visAt s b r c = true →
    ∃ m, m ∈ (getGame s.games b).moves ∧ m.occupies r c = true

/-- The global move log and the private `_moveCount` stay in lock step. -/
def InvLen (s : QGame) : Prop := s.moves.length = s.moveCount

/-- Per-board sanity: an in-progress board has both seats filled, and a
board whose O seat is empty has recorded no moves. -/
def InvBoards (s : QGame) : Prop :=
  ∀ b, ((getGame s.games b).status = GStatus.inProgress →
          (getGame s.games b).x ≠ none ∧ (getGame s.games b).o ≠ none) ∧
       ((getGame s.games b).o = none → (getGame s.games b).moves = [])

/-- The conjunction of all inductive invariants. -/
def InvP (s : QGame) : Prop := InvWaiting s ∧ InvVis s ∧ InvLen s ∧ InvBoards s

/-- All states obtainable from `s` by any sequence of `join`, `leave` and
`applyMove` calls (accepted or rejected). -/
inductive StepStar : QGame → QGame → Prop where
  | refl (s : QGame) : StepStar s s
  | joinStep (s t : QGame) (p : Player) : StepStar s t → StepStar s (qJoin t p).1
  | leaveStep (s t : QGame) (p : Player) : StepStar s t → StepStar s (qLeave t p).1
  | moveStep (s t : QGame) (gm : GameMoveArg) : StepStar s t → StepStar s (applyMove t gm).1

/-- A state reachable from a freshly constructed game. -/
def Reachable (s : QGame) : Prop := StepStar initialQGame s

theorem stepStar_trans (s t u : QGame) (h1 : StepStar s t) (h2 : StepStar t u) :
    StepStar s u := by
  induction h2 with
  | refl => exact h1
  | joinStep t' p prev ih => exact StepStar.joinStep _ _ p ih
  | leaveStep t' p prev ih => exact StepStar.leaveStep _ _ p ih
  | moveStep t' gm prev ih => exact StepStar.moveStep _ _ gm ih

theorem inv_init : InvP initialQGame := by
  refine ⟨?_, ?_, rfl, ?_⟩
  · intro _
    exact ⟨fun b r c => getVis_initial b r c, rfl, rfl⟩
  · intro b r c hv
    rw [show visAt initialQGame b r c = false from getVis_initial b r c] at hv
    exact absurd hv (by simp)
  · intro b
    cases b <;> exact ⟨fun h => by simp [initialQGame, getGame, initialSubGame] at h,
      fun _ => rfl⟩

theorem subJoin_boardInv (g : TicTacToeGame) (p : Player)
    (h1 : g.status = GStatus.inProgress → g.x ≠ none ∧ g.o ≠ none)
    (h2 : g.o = none → g.moves = []) :
    ((subJoin g p).status = GStatus.inProgress →
      (subJoin g p).x ≠ none ∧ (subJoin g p).o ≠ none) ∧
    ((subJoin g p).o = none → (subJoin g p).moves = []) := by
  unfold subJoin subJoin.joinFinish
  by_cases hx : g.x = none
  · rw [if_pos hx]
    by_cases ho : g.o = none
    · have hc : ¬ (({ g with x := some p } : TicTacToeGame).x ≠ none ∧
          ({ g with x := some p } : TicTacToeGame).o ≠ none) := by
        simp [ho]
      rw [if_neg hc]
      refine ⟨?_, fun _ => h2 ho⟩
      intro hst
      exact absurd (h1 hst).1 (by simp [hx])
    · have hc : (({ g with x := some p } : TicTacToeGame).x ≠ none ∧
          ({ g with x := some p } : TicTacToeGame).o ≠ none) := by
        simp [ho]
      rw [if_pos hc]
      exact ⟨fun _ => ⟨by simp, ho⟩, fun hon => absurd hon ho⟩
  · rw [if_neg hx]
    by_cases ho : g.o = none
    · rw [if_pos ho]
      have hc : (({ g with o := some p } : TicTacToeGame).x ≠ none ∧
          ({ g with o := some p } : TicTacToeGame).o ≠ none) := by
        simp [hx]
      rw [if_pos hc]
      exact ⟨fun _ => ⟨hx, by simp⟩, fun hon => by simp at hon⟩
    · rw [if_neg ho]
      exact ⟨h1, h2⟩

theorem subLeave_boardInv (g : TicTacToeGame) (p : Player)
    (h1 : g.status = GStatus.inProgress → g.x ≠ none ∧ g.o ≠ none)
    (h2 : g.o = none → g.moves = []) :
    ((subLeave g p).status = GStatus.inProgress →
      (subLeave g p).x ≠ none ∧ (subLeave g p).o ≠ none) ∧
    ((subLeave g p).o = none → (subLeave g p).moves = []) := by
  rcases subLeave_cases g p with ⟨_, he⟩ | ⟨_, he⟩ | ⟨_, hoeq, hone, hst⟩
  · rw [he]; exact ⟨h1, h2⟩
  · rw [he]
    exact ⟨fun h => by simp [initialSubGame] at h, fun _ => rfl⟩
  · refine ⟨?_, ?_⟩
    · intro h; rw [hst] at h; exact absurd h (by simp)
    · intro h; rw [hoeq] at h; exact absurd h hone

theorem subApply_boardInv (g : TicTacToeGame) (mv : SubMove)
    (hst : g.status = GStatus.inProgress)
    (h1 : g.status = GStatus.inProgress → g.x ≠ none ∧ g.o ≠ none) :
    ((subApplyMove g mv).status = GStatus.inProgress →
      (subApplyMove g mv).x ≠ none ∧ (subApplyMove g mv).o ≠ none) ∧
    ((subApplyMove g mv).o = none → (subApplyMove g mv).moves = []) := by
  have hx := (h1 hst).1
  have ho := (h1 hst).2
  refine ⟨fun _ => ?_, fun hon => ?_⟩
  · rw [subApplyMove_x, subApplyMove_o]; exact ⟨hx, ho⟩
  · rw [subApplyMove_o] at hon; exact absurd hon ho

end QT

namespace QT

theorem inv_jsu (s s1 : QGame) (p : Player)
    (hW : InvWaiting s) (hV : InvVis s) (hL : InvLen s) (hB : InvBoards s)
    (hvis : s1.publiclyVisible = s.publiclyVisible)
    (hst : s1.status = s.status)
    (hmv : s1.moves = s.moves) (hmc : s1.moveCount = s.moveCount)
    (hg : s1.games = mapGames (fun g => subJoin g p) s.games) :
    InvP (qJoin.joinStatusUpdate s1) := by
  have jvis : (qJoin.joinStatusUpdate s1).publiclyVisible = s1.publiclyVisible := by
    unfold qJoin.joinStatusUpdate; split <;> rfl
  have jst : (qJoin.joinStatusUpdate s1).status = s1.status ∨
      (qJoin.joinStatusUpdate s1).status = GStatus.inProgress := by
    unfold qJoin.joinStatusUpdate
    split
    · exact Or.inr rfl
    · exact Or.inl rfl
  have jmv : (qJoin.joinStatusUpdate s1).moves = s1.moves := by
    unfold qJoin.joinStatusUpdate; split <;> rfl
  have jmc : (qJoin.joinStatusUpdate s1).moveCount = s1.moveCount := by
    unfold qJoin.joinStatusUpdate; split <;> rfl
  have jg : (qJoin.joinStatusUpdate s1).games = s1.games := by
    unfold qJoin.joinStatusUpdate; split <;> rfl
  refine ⟨?_, ?_, ?_, ?_⟩
  · intro hw
    rcases jst with hcs | hcs
    · rw [hcs, hst] at hw
      obtain ⟨hv0, hc0, hm0⟩ := hW hw
      refine ⟨?_, by rw [jmc, hmc]; exact hc0, by rw [jmv, hmv]; exact hm0⟩
      intro b r c
      rw [visAt_eq_of _ s1 jvis, visAt_eq_of s1 s hvis]
      exact hv0 b r c
    · exact absurd (hcs.symm.trans hw) (by simp)
  · intro b r c hvc
    rw [visAt_eq_of _ s1 jvis, visAt_eq_of s1 s hvis] at hvc
    obtain ⟨m, hm, hocc⟩ := hV b r c hvc
    refine ⟨m, ?_, hocc⟩
    rw [jg, hg, getGame_mapGames, subJoin_moves]
    exact hm
  · show (qJoin.joinStatusUpdate s1).moves.length = (qJoin.joinStatusUpdate s1).moveCount
    rw [jmv, hmv, jmc, hmc]
    exact hL
  · intro b
    rw [jg, hg, getGame_mapGames]
    exact subJoin_boardInv _ p (hB b).1 (hB b).2

theorem inv_join (s : QGame) (p : Player) (h : InvP s) : InvP (qJoin s p).1 := by
  obtain ⟨hW, hV, hL, hB⟩ := h
  unfold qJoin
  by_cases h1 : s.x = some p ∨ s.o = some p
  · rw [if_pos h1]; exact ⟨hW, hV, hL, hB⟩
  rw [if_neg h1]
  by_cases h2 : s.x = none
  · rw [if_pos h2]
    exact inv_jsu s _ p hW hV hL hB rfl rfl rfl rfl rfl
  rw [if_neg h2]
  by_cases h3 : s.o = none
  · rw [if_pos h3]
    exact inv_jsu s _ p hW hV hL hB rfl rfl rfl rfl rfl
  rw [if_neg h3]
  exact ⟨hW, hV, hL, hB⟩

theorem inv_leave_over (s s1 : QGame) (p : Player)
    (hV : InvVis s) (hL : InvLen s) (hB : InvBoards s)
    (hvis : s1.publiclyVisible = s.publiclyVisible)
    (hst : s1.status = GStatus.over)
    (hmv : s1.moves = s.moves) (hmc : s1.moveCount = s.moveCount)
    (hg : s1.games = mapGames (fun g => subLeave g p) s.games) :
    InvP s1 := by
  refine ⟨?_, ?_, ?_, ?_⟩
  · intro hw
    rw [hst] at hw
    exact absurd hw (by simp)
  · intro b r c hvc
    rw [visAt_eq_of s1 s hvis] at hvc
    obtain ⟨m, hm, hocc⟩ := hV b r c hvc
    rw [hg, getGame_mapGames]
    rcases subLeave_cases (getGame s.games b) p with ⟨_, he⟩ | ⟨ho, he⟩ | ⟨hmm, _, _, _⟩
    · rw [he]; exact ⟨m, hm, hocc⟩
    · exact absurd hm (by rw [(hB b).2 ho]; simp)
    · rw [hmm]; exact ⟨m, hm, hocc⟩
  · show s1.moves.length = s1.moveCount
    rw [hmv, hmc]
    exact hL
  · intro b
    rw [hg, getGame_mapGames]
    exact subLeave_boardInv _ p (hB b).1 (hB b).2

theorem inv_leave_reset (s s1 : QGame) (p : Player)
    (hW : InvWaiting s) (hB : InvBoards s)
    (hsw : s.status = GStatus.waitingToStart)
    (hvis : s1.publiclyVisible = initialVisMap)
    (hmv : s1.moves = []) (hmc : s1.moveCount = s.moveCount)
    (hg : s1.games = mapGames (fun g => subLeave g p) s.games) :
    InvP s1 := by
  obtain ⟨_, hc0, _⟩ := hW hsw
  have hvf : ∀ b r c, visAt s1 b r c = false := by
    intro b r c
    show Vis3.get (getVis s1.publiclyVisible b) r c = false
    rw [hvis]
    exact getVis_initial b r c
  refine ⟨?_, ?_, ?_, ?_⟩
  · intro _
    exact ⟨hvf, by rw [hmc]; exact hc0, hmv⟩
  · intro b r c hvc
    rw [hvf b r c] at hvc
    exact absurd hvc (by simp)
  · show s1.moves.length = s1.moveCount
    rw [hmv, hmc, hc0]
    rfl
  · intro b
    rw [hg, getGame_mapGames]
    exact subLeave_boardInv _ p (hB b).1 (hB b).2

theorem inv_leave (s : QGame) (p : Player) (h : InvP s) : InvP (qLeave s p).1 := by
  obtain ⟨hW, hV, hL, hB⟩ := h
  unfold qLeave
  by_cases h1 : s.x ≠ some p ∧ s.o ≠ some p
  · rw [if_pos h1]; exact ⟨hW, hV, hL, hB⟩
  rw [if_neg h1]
  by_cases h2 : s.status = GStatus.inProgress
  · rw [if_pos h2]
    by_cases h3 : s.x = some p
    · rw [if_pos h3]
      exact inv_leave_over s _ p hV hL hB rfl rfl rfl rfl rfl
    · rw [if_neg h3]
      exact inv_leave_over s _ p hV hL hB rfl rfl rfl rfl rfl
  rw [if_neg h2]
  by_cases h4 : s.status = GStatus.waitingToStart
  · rw [if_pos h4]
    by_cases h5 : s.x = some p
    · rw [if_pos h5]
      exact inv_leave_reset s _ p hW hB h4 rfl rfl rfl rfl
    · rw [if_neg h5]; exact ⟨hW, hV, hL, hB⟩
  · rw [if_neg h4]; exact ⟨hW, hV, hL, hB⟩

theorem inv_move (s : QGame) (gm : GameMoveArg) (h : InvP s) : InvP (applyMove s gm).1 := by
  obtain ⟨hW, hV, hL, hB⟩ := h
  cases hv2 : (applyMove s gm).2 with
  | some e =>
    rw [applyMove_err s gm (by rw [hv2]; simp)]
    exact ⟨hW, hV, hL, hB⟩
  | none =>
    have hvn : validateMove s gm.move.board gm.move.row gm.move.col
        (resolvedPiece s gm.playerID) = none := by
      rw [← applyMove_snd]; exact hv2
    obtain ⟨hbc, hoc, hpar, hip⟩ := validate_none _ _ _ _ _ hvn
    rw [applyMove_ok s gm hv2]
    refine ⟨?_, ?_, ?_, ?_⟩
    · intro hw
      rcases ce_status_cases (checkForWins (applyAccepted s gm.move.board gm.move.row
          gm.move.col (resolvedPiece s gm.playerID))) with hcs | hcs
      · rw [hcs, cw_status, aa_status, hip] at hw
        exact absurd hw (by simp)
      · exact absurd (hcs.symm.trans hw) (by simp)
    · intro b' r' c' hvc
      rw [visAt_eq_of _ _ (ce_publiclyVisible _), visAt_eq_of _ _ (cw_publiclyVisible _)] at hvc
      have hgames : (checkForGameEnding (checkForWins (applyAccepted s gm.move.board
          gm.move.row gm.move.col (resolvedPiece s gm.playerID)))).games =
          (applyAccepted s gm.move.board gm.move.row gm.move.col
            (resolvedPiece s gm.playerID)).games := by
        rw [ce_games, cw_games]
      rw [hgames]
      rcases aa_vis_cases s gm.move.board gm.move.row gm.move.col
          (resolvedPiece s gm.playerID) b' r' c' hvc with hOld | ⟨hb, hr, hc, m, hfind⟩
      · obtain ⟨m, hm, hocc⟩ := hV b' r' c' hOld
        rcases aa_games_cases s gm.move.board gm.move.row gm.move.col
            (resolvedPiece s gm.playerID) b' with heq | ⟨hstp, mv, heq⟩
        · rw [heq]; exact ⟨m, hm, hocc⟩
        · rw [heq, subApplyMove_moves]
          exact ⟨m, List.mem_append_left _ hm, hocc⟩
      · subst hb; subst hr; subst hc
        have hm : m ∈ (getGame s.games gm.move.board).moves :=
          List.mem_of_find?_eq_some hfind
        have hocc0 := List.find?_some hfind
        have hocc : m.occupies gm.move.row gm.move.col = true := by simpa using hocc0
        rcases aa_games_cases s gm.move.board gm.move.row gm.move.col
            (resolvedPiece s gm.playerID) gm.move.board with heq | ⟨hstp, mv, heq⟩
        · rw [heq]; exact ⟨m, hm, hocc⟩
        · rw [heq, subApplyMove_moves]
          exact ⟨m, List.mem_append_left _ hm, hocc⟩
    · show (checkForGameEnding _).moves.length = (checkForGameEnding _).moveCount
      rw [ce_moves, cw_moves, aa_moves, ce_moveCount, cw_moveCount, aa_moveCount,
        List.length_append]
      simp [InvLen] at hL
      simp [hL]
    · intro b'
      have hgames : (checkForGameEnding (checkForWins (applyAccepted s gm.move.board
          gm.move.row gm.move.col (resolvedPiece s gm.playerID)))).games =
          (applyAccepted s gm.move.board gm.move.row gm.move.col
            (resolvedPiece s gm.playerID)).games := by
        rw [ce_games, cw_games]
      rw [hgames]
      rcases aa_games_cases s gm.move.board gm.move.row gm.move.col
          (resolvedPiece s gm.playerID) b' with heq | ⟨hstp, mv, heq⟩
      · rw [heq]; exact hB b'
      · rw [heq]
        exact subApply_boardInv _ mv hstp (hB b').1

theorem stepStar_inv (s t : QGame) (h : StepStar s t) (hs : InvP s) : InvP t := by
  induction h with
  | refl => exact hs
  | joinStep t' p prev ih => exact inv_join _ p ih
  | leaveStep t' p prev ih => exact inv_leave _ p ih
  | moveStep t' gm prev ih => exact inv_move _ gm ih

theorem reachable_inv (s : QGame) (h : Reachable s) : InvP s :=
  stepStar_inv _ _ h inv_init

end QT

namespace QT

/-! ### Concrete game runs used by witnesses and counterexamples -/

/-- Player 0 joins a fresh game (seated as X). -/
def wS1 : QGame := (qJoin initialQGame 0).1

/-- Player 1 joins next (seated as O); the match is now in progress. -/
def wS2 : QGame := (qJoin wS1 1).1

/-- X's opening move on board A, cell (0,0). -/
def wMv1 : GameMoveArg :=
  { playerID := 0, move := { board := BoardId.A, row := 0, col := 0, gamePiece := Mark.X } }

/-- The state after X's opening move. -/
def wS3 : QGame := (applyMove wS2 wMv1).1

/-- O targets the same cell (A,0,0): a collision. -/
def wMv2 : GameMoveArg :=
  { playerID := 1, move := { board := BoardId.A, row := 0, col := 0, gamePiece := Mark.O } }

/-- The state after the collision. -/
def wS4 : QGame := (applyMove wS3 wMv2).1

/-- A run in which X wins board A: A(0,0), B(0,0) by O, A(0,1),
B(0,1) by O, A(0,2). -/
def wMvB00 : GameMoveArg :=
  { playerID := 1, move := { board := BoardId.B, row := 0, col := 0, gamePiece := Mark.O } }

def wMvA01 : GameMoveArg :=
  { playerID := 0, move := { board := BoardId.A, row := 0, col := 1, gamePiece := Mark.X } }

def wMvB01 : GameMoveArg :=
  { playerID := 1, move := { board := BoardId.B, row := 0, col := 1, gamePiece := Mark.O } }

def wMvA02 : GameMoveArg :=
  { playerID := 0, move := { board := BoardId.A, row := 0, col := 2, gamePiece := Mark.X } }

def wT2 : QGame := (applyMove wS3 wMvB00).1

def wT3 : QGame := (applyMove wT2 wMvA01).1

def wT4 : QGame := (applyMove wT3 wMvB01).1

/-- Board A is now terminal (won by X) while the match is still running. -/
def wT5 : QGame := (applyMove wT4 wMvA02).1

/-- O's next move targeting board C, with board A terminal and untouched. -/
def wMv6 : GameMoveArg :=
  { playerID := 1, move := { board := BoardId.C, row := 1, col := 1, gamePiece := Mark.O } }

/-! ### Claim C1 -/

theorem aa_collision (s : QGame) (b : BoardId) (row col : Fin 3) (piece : Mark) (m : SubMove)
    (hm : (getGame s.games b).moves.find? (fun mm => mm.occupies row col) = some m)
    (hvis : visAt s b row col = false) :
    applyAccepted s b row col piece =
      applyMoveWithBlanks
        { s with publiclyVisible := setVisMap s.publiclyVisible b row col,
                 moveCount := s.moveCount + 1,
                 moves := s.moves ++ [{ board := b, row := row, col := col, gamePiece := piece }] }
        b (SubMove.pass m.gamePiece) := by
  unfold applyAccepted
  simp only [hm]
  rw [if_pos hvis]

theorem subApplyMove_pass_grid (g : TicTacToeGame) (mk : Mark) :
    (subApplyMove g (SubMove.pass mk)).grid = g.grid := rfl

/-- C1: when an accepted move in an in-progress match targets a cell whose
board log already holds an occupying entry (necessarily the opposing mark)
that is not yet publicly visible, the move is a collision: the visibility
flag at that coordinate becomes true, the incoming move (with its resolved
mark) is appended to the global move log, the global turn index advances by
exactly one, and no mark is placed — the targeted board's grid is unchanged
(the cell retains its pre-existing mark) and the board merely receives a
synthesized pass carrying the pre-existing mark. -/
theorem qttt_c1 (s : QGame) (gm : GameMoveArg) (m : SubMove)
    (hm : (getGame s.games gm.move.board).moves.find?
      (fun mm => mm.occupies gm.move.row gm.move.col) = some m)
    (hvis : visAt s gm.move.board gm.move.row gm.move.col = false)
    (hprog : (getGame s.games gm.move.board).status = GStatus.inProgress)
    (hacc : (applyMove s gm).2 = none) :
    visAt (applyMove s gm).1 gm.move.board gm.move.row gm.move.col = true ∧
    (applyMove s gm).1.moves = s.moves ++
      [{ board := gm.move.board, row := gm.move.row, col := gm.move.col,
         gamePiece := resolvedPiece s gm.playerID }] ∧
    (applyMove s gm).1.moveCount = s.moveCount + 1 ∧
    (getGame (applyMove s gm).1.games gm.move.board).grid =
      (getGame s.games gm.move.board).grid ∧
    (getGame (applyMove s gm).1.games gm.move.board).moves =
      (getGame s.games gm.move.board).moves ++ [SubMove.pass m.gamePiece] := by
  rw [applyMove_ok s gm hacc,
    aa_collision s gm.move.board gm.move.row gm.move.col (resolvedPiece s gm.playerID) m hm hvis]
  refine ⟨?_, ?_, ?_, ?_, ?_⟩
  · rw [visAt_eq_of _ _ (ce_publiclyVisible _), visAt_eq_of _ _ (cw_publiclyVisible _),
      visAt_eq_of _ _ (blanks_publiclyVisible _ _ _)]
    exact getVis_setVisMap_self _ _ _ _
  · rw [ce_moves, cw_moves, blanks_moves]
  · rw [ce_moveCount, cw_moveCount, blanks_moveCount]
  · rw [ce_games, cw_games, blanks_getGame, if_pos hprog, if_pos rfl,
      subApplyMove_pass_grid]
  · rw [ce_games, cw_games, blanks_getGame, if_pos hprog, if_pos rfl,
      subApplyMove_moves]

/-- C1 witness: the concrete collision of the run above (O replays (A,0,0)
on top of X's hidden mark). -/
theorem qttt_c1_witness :
    visAt wS4 BoardId.A 0 0 = true ∧
    wS4.moves = wS3.moves ++
      [{ board := BoardId.A, row := 0, col := 0, gamePiece := Mark.O }] ∧
    wS4.moveCount = wS3.moveCount + 1 ∧
    (getGame wS4.games BoardId.A).grid = (getGame wS3.games BoardId.A).grid ∧
    (getGame wS4.games BoardId.A).moves =
      (getGame wS3.games BoardId.A).moves ++ [SubMove.pass Mark.X] :=
  qttt_c1 wS3 wMv2 (SubMove.real 0 0 Mark.X) rfl rfl rfl rfl

end QT

namespace QT

/-! ### Claim C2 -/

/-- C2 counterexample: in the concrete run `wT5` the match is in progress
and board A is terminal with a non-empty log; O's accepted move targeting
board C leaves board A completely untouched — the terminal board does
*not* receive a synthesized pass, and neither does every non-targeted
board (board A is non-targeted here). -/
theorem qttt_c2_counterexample :
    (getGame wT5.games BoardId.A).status = GStatus.over ∧
    (getGame wT5.games BoardId.A).moves ≠ [] ∧
    wT5.status = GStatus.inProgress ∧
    wMv6.move.board = BoardId.C ∧
    (applyMove wT5 wMv6).2 = none ∧
    getGame (applyMove wT5 wMv6).1.games BoardId.A = getGame wT5.games BoardId.A := by
  refine ⟨rfl, by decide, rfl, rfl, rfl, rfl⟩

theorem blanks_other (s : QGame) (b : BoardId) (mv : SubMove) (b' : BoardId)
    (hne : b' ≠ b) :
    getGame (applyMoveWithBlanks s b mv).games b' =
      (if (getGame s.games b').status = GStatus.inProgress then
        subApplyMove (getGame s.games b') (SubMove.pass mv.gamePiece)
      else getGame s.games b') := by
  rw [blanks_getGame, if_neg hne]

theorem aa_other_board (s : QGame) (b : BoardId) (row col : Fin 3) (piece : Mark)
    (b' : BoardId) (hne : b' ≠ b) :
    ∃ mk, getGame (applyAccepted s b row col piece).games b' =
      (if (getGame s.games b').status = GStatus.inProgress then
        subApplyMove (getGame s.games b') (SubMove.pass mk)
      else getGame s.games b') := by
  unfold applyAccepted
  split
  next m heq =>
    split
    · exact ⟨m.gamePiece, blanks_other _ b _ b' hne⟩
    · exact ⟨piece, blanks_other _ b _ b' hne⟩
  · exact ⟨piece, blanks_other _ b _ b' hne⟩

/-- C2 (amended): after every accepted externally-originated move, each of
the two boards not targeted that is still in progress receives exactly one
synthesized pass appended to its local log; a non-targeted board that is
not in progress (in particular a terminal board) receives nothing at all —
its entire engine state is unchanged. -/
theorem qttt_c2_amended (s : QGame) (gm : GameMoveArg) (b' : BoardId)
    (hne : b' ≠ gm.move.board)
    (hacc : (applyMove s gm).2 = none) :
    ((getGame s.games b').status = GStatus.inProgress →
      ∃ mk, (getGame (applyMove s gm).1.games b').moves =
        (getGame s.games b').moves ++ [SubMove.pass mk]) ∧
    ((getGame s.games b').status ≠ GStatus.inProgress →
      getGame (applyMove s gm).1.games b' = getGame s.games b') := by
  rw [applyMove_ok s gm hacc]
  obtain ⟨mk, hmk⟩ := aa_other_board s gm.move.board gm.move.row gm.move.col
    (resolvedPiece s gm.playerID) b' hne
  constructor
  · intro hst
    refine ⟨mk, ?_⟩
    rw [ce_games, cw_games, hmk, if_pos hst, subApplyMove_moves]
  · intro hst
    rw [ce_games, cw_games, hmk, if_neg hst]

/-- C2 witness: X's accepted opening move on board A appends one
synthesized pass to the in-progress non-targeted board B. -/
theorem qttt_c2_witness :
    ∃ mk, (getGame wS3.games BoardId.B).moves =
      (getGame wS2.games BoardId.B).moves ++ [SubMove.pass mk] :=
  (qttt_c2_amended wS2 wMv1 BoardId.B (by decide) rfl).1 rfl

/-! ### Claim C3 -/

/-- The state after player 0 (X) leaves the in-progress match `wS2`: the
match is over with player 1 as winner. -/
def wLeaveS : QGame := (qLeave wS2 0).1

/-- A move by the still-seated player 1 submitted after the match ended. -/
def wMv3 : GameMoveArg :=
  { playerID := 1, move := { board := BoardId.A, row := 0, col := 2, gamePiece := Mark.O } }

/-- C3 counterexample: with the match not in progress (it is over after X
left), a move by the O player is rejected with the out-of-turn error, not
with MatchNotInProgress — so the match-not-in-progress check is *not* the
first check performed. -/
theorem qttt_c3_counterexample :
    wLeaveS.status ≠ GStatus.inProgress ∧
    (applyMove wLeaveS wMv3).2 = some QError.notYourTurn := by
  exact ⟨by decide, rfl⟩

/-- C3 (amended): `_validateMove` raises the first applicable error in
the order (b) targeted board terminal with a non-empty log (IllegalTarget),
then (c) target cell publicly visible or bearing the mover's own mark
(IllegalTarget), then (d) turn-parity mismatch (OutOfTurn), and only last
(a) match not in progress (MatchNotInProgress); in particular when the
match is not in progress any other defect's error takes precedence over
MatchNotInProgress. -/
theorem qttt_c3_amended (s : QGame) (b : BoardId) (row col : Fin 3) (piece : Mark) :
    (boardClosed (getGame s.games b) = true →
      validateMove s b row col piece = some QError.invalidMove) ∧
    (boardClosed (getGame s.games b) = false →
      occupiedConflict s b row col piece = true →
      validateMove s b row col piece = some QError.invalidMove) ∧
    (boardClosed (getGame s.games b) = false →
      occupiedConflict s b row col piece = false →
      piece ≠ (if s.moveCount % 2 = 0 then Mark.X else Mark.O) →
      validateMove s b row col piece = some QError.notYourTurn) ∧
    (boardClosed (getGame s.games b) = false →
      occupiedConflict s b row col piece = false →
      piece = (if s.moveCount % 2 = 0 then Mark.X else Mark.O) →
      s.status ≠ GStatus.inProgress →
      validateMove s b row col piece = some QError.gameNotInProgress) ∧
    (boardClosed (getGame s.games b) = false →
      occupiedConflict s b row col piece = false →
      piece = (if s.moveCount % 2 = 0 then Mark.X else Mark.O) →
      s.status = GStatus.inProgress →
      validateMove s b row col piece = none) := by
  unfold validateMove
  refine ⟨?_, ?_, ?_, ?_, ?_⟩
  · intro h1
    rw [if_pos h1]
  · intro h1 h2
    rw [if_neg (by simp [h1]), if_pos h2]
  · intro h1 h2 h3
    rw [if_neg (by simp [h1]), if_neg (by simp [h2]), if_pos h3]
  · intro h1 h2 h3 h4
    rw [if_neg (by simp [h1]), if_neg (by simp [h2]), if_neg (by simp [h3]), if_pos h4]
  · intro h1 h2 h3 h4
    rw [if_neg (by simp [h1]), if_neg (by simp [h2]), if_neg (by simp [h3]),
      if_neg (by simp [h4])]

/-- C3 witness: on the concrete in-progress state `wS2` with no defect,
validation accepts X's move at (A,0,0). -/
theorem qttt_c3_witness : validateMove wS2 BoardId.A 0 0 Mark.X = none :=
  (qttt_c3_amended wS2 BoardId.A 0 0 Mark.X).2.2.2.2 rfl rfl rfl rfl

end QT

namespace QT

/-! ### Claim C4 -/

/-- C4: every `join`, `leave` or `applyMove` call that is rejected with an
error leaves the whole state — status, seats, winner, scores, move log,
visibility map and the three boards — exactly as it was: the source throws
before performing any mutation. -/
theorem qttt_c4 (s : QGame) (p q : Player) (gm : GameMoveArg) (e1 e2 e3 : QError) :
    ((qJoin s p).2 = some e1 → (qJoin s p).1 = s) ∧
    ((qLeave s q).2 = some e2 → (qLeave s q).1 = s) ∧
    ((applyMove s gm).2 = some e3 → (applyMove s gm).1 = s) := by
  refine ⟨?_, ?_, ?_⟩
  · intro he
    unfold qJoin at he ⊢
    by_cases h1 : s.x = some p ∨ s.o = some p
    · rw [if_pos h1]
    · rw [if_neg h1] at he ⊢
      by_cases h2 : s.x = none
      · rw [if_pos h2] at he; exact absurd he (by simp)
      · rw [if_neg h2] at he ⊢
        by_cases h3 : s.o = none
        · rw [if_pos h3] at he; exact absurd he (by simp)
        · rw [if_neg h3]
  · intro he
    unfold qLeave at he ⊢
    by_cases h1 : s.x ≠ some q ∧ s.o ≠ some q
    · rw [if_pos h1]
    · rw [if_neg h1] at he ⊢
      by_cases h2 : s.status = GStatus.inProgress
      · rw [if_pos h2] at he
        by_cases h3 : s.x = some q
        · rw [if_pos h3] at he; exact absurd he (by simp)
        · rw [if_neg h3] at he; exact absurd he (by simp)
      · rw [if_neg h2] at he ⊢
        by_cases h4 : s.status = GStatus.waitingToStart
        · rw [if_pos h4] at he
          by_cases h5 : s.x = some q
          · rw [if_pos h5] at he; exact absurd he (by simp)
          · rw [if_neg h5] at he; exact absurd he (by simp)
        · rw [if_neg h4]
  · intro he
    exact applyMove_err s gm (by rw [he]; simp)

/-- A rejected move used by the C4 witness: player 1 (seated as O) tries
to move first, out of turn. -/
def wMvBad : GameMoveArg :=
  { playerID := 1, move := { board := BoardId.A, row := 1, col := 1, gamePiece := Mark.O } }

/-- C4 witness: a rejected `join` (seats full), a rejected `leave`
(player 2 is unseated) and a rejected `applyMove` (out of turn) each leave
the concrete joined state untouched. -/
theorem qttt_c4_witness :
    (qJoin wS2 2).1 = wS2 ∧ (qLeave wS2 2).1 = wS2 ∧ (applyMove wS2 wMvBad).1 = wS2 := by
  have T := qttt_c4 wS2 2 2 wMvBad QError.gameFull QError.playerNotInGame QError.notYourTurn
  exact ⟨T.1 rfl, T.2.1 rfl, T.2.2 rfl⟩

/-! ### Claim C5 -/

/-- C5: after every accepted move (in a match whose two seats are filled),
the match status is over exactly when all three boards are terminal, and
when it is over the winner is the seat holding the strictly higher score —
unset exactly when the two scores are equal. -/
theorem qttt_c5 (s : QGame) (gm : GameMoveArg) (px po : Player)
    (hx : s.x = some px) (ho : s.o = some po)
    (hacc : (applyMove s gm).2 = none) :
    ((applyMove s gm).1.status = GStatus.over ↔
      allBoardsOver (applyMove s gm).1.games = true) ∧
    ((applyMove s gm).1.status = GStatus.over →
      (((applyMove s gm).1.winner = none ↔
          (applyMove s gm).1.xScore = (applyMove s gm).1.oScore) ∧
       ((applyMove s gm).1.xScore > (applyMove s gm).1.oScore →
          (applyMove s gm).1.winner = (applyMove s gm).1.x) ∧
       ((applyMove s gm).1.oScore > (applyMove s gm).1.xScore →
          (applyMove s gm).1.winner = (applyMove s gm).1.o))) := by
  have hvn : validateMove s gm.move.board gm.move.row gm.move.col
      (resolvedPiece s gm.playerID) = none := by
    rw [← applyMove_snd]; exact hacc
  obtain ⟨_, _, _, hip⟩ := validate_none _ _ _ _ _ hvn
  rw [applyMove_ok s gm hacc]
  by_cases hall : allBoardsOver (checkForWins (applyAccepted s gm.move.board gm.move.row
      gm.move.col (resolvedPiece s gm.playerID))).games = true
  · rw [ce_of_over _ hall]
    have hGames : allBoardsOver (checkForWins (applyAccepted s gm.move.board gm.move.row
        gm.move.col (resolvedPiece s gm.playerID))).games = true := hall
    refine ⟨⟨fun _ => hall, fun _ => rfl⟩, fun _ => ?_⟩
    rcases Nat.lt_trichotomy
        (checkForWins (applyAccepted s gm.move.board gm.move.row gm.move.col
          (resolvedPiece s gm.playerID))).xScoreI
        (checkForWins (applyAccepted s gm.move.board gm.move.row gm.move.col
          (resolvedPiece s gm.playerID))).oScoreI with hlt | heq | hgt
    · refine ⟨?_, ?_, ?_⟩
      · show (if _ > _ then _ else if _ < _ then _ else _) = none ↔ _
        rw [if_neg (by omega), if_pos hlt]
        show (checkForWins _).o = none ↔ (checkForWins _).xScore = (checkForWins _).oScore
        rw [cw_o, aa_o, ho]
        constructor
        · intro hcon; exact absurd hcon (by simp)
        · intro hcon
          rw [← cw_xScoreI, ← cw_oScoreI] at hcon
          omega
      · intro hcon
        rw [show ((checkForWins _ : QGame)).xScore =
            ((checkForWins _ : QGame)).xScoreI from (cw_xScoreI _).symm,
          show ((checkForWins _ : QGame)).oScore =
            ((checkForWins _ : QGame)).oScoreI from (cw_oScoreI _).symm] at hcon
        omega
      · intro _
        show (if _ > _ then _ else if _ < _ then _ else _) = _
        rw [if_neg (by omega), if_pos hlt]
    · refine ⟨?_, ?_, ?_⟩
      · show (if _ > _ then _ else if _ < _ then _ else _) = none ↔ _
        rw [if_neg (by omega), if_neg (by omega)]
        rw [show ((checkForWins _ : QGame)).xScore =
            ((checkForWins _ : QGame)).xScoreI from (cw_xScoreI _).symm,
          show ((checkForWins _ : QGame)).oScore =
            ((checkForWins _ : QGame)).oScoreI from (cw_oScoreI _).symm]
        simp [heq]
      · intro hcon
        rw [show ((checkForWins _ : QGame)).xScore =
            ((checkForWins _ : QGame)).xScoreI from (cw_xScoreI _).symm,
          show ((checkForWins _ : QGame)).oScore =
            ((checkForWins _ : QGame)).oScoreI from (cw_oScoreI _).symm] at hcon
        omega
      · intro hcon
        rw [show ((checkForWins _ : QGame)).xScore =
            ((checkForWins _ : QGame)).xScoreI from (cw_xScoreI _).symm,
          show ((checkForWins _ : QGame)).oScore =
            ((checkForWins _ : QGame)).oScoreI from (cw_oScoreI _).symm] at hcon
        omega
    · refine ⟨?_, ?_, ?_⟩
      · show (if _ > _ then _ else if _ < _ then _ else _) = none ↔ _
        rw [if_pos hgt]
        show (checkForWins _).x = none ↔ (checkForWins _).xScore = (checkForWins _).oScore
        rw [cw_x, aa_x, hx]
        constructor
        · intro hcon; exact absurd hcon (by simp)
        · intro hcon
          rw [← cw_xScoreI, ← cw_oScoreI] at hcon
          omega
      · intro _
        show (if _ > _ then _ else if _ < _ then _ else _) = _
        rw [if_pos hgt]
      · intro hcon
        rw [show ((checkForWins _ : QGame)).xScore =
            ((checkForWins _ : QGame)).xScoreI from (cw_xScoreI _).symm,
          show ((checkForWins _ : QGame)).oScore =
            ((checkForWins _ : QGame)).oScoreI from (cw_oScoreI _).symm] at hcon
        omega
  · rw [ce_of_not_over _ hall]
    have hstat : (checkForWins (applyAccepted s gm.move.board gm.move.row gm.move.col
        (resolvedPiece s gm.playerID))).status = GStatus.inProgress := by
      rw [cw_status, aa_status]; exact hip
    refine ⟨⟨fun hcon => ?_, fun hcon => ?_⟩, fun hcon => ?_⟩
    · rw [hstat] at hcon; exact absurd hcon (by simp)
    · exact absurd hcon hall
    · rw [hstat] at hcon; exact absurd hcon (by simp)

/-- C5 witness: after X's accepted opening move the match is not over and
indeed not all boards are terminal. -/
theorem qttt_c5_witness :
    (wS3.status = GStatus.over ↔ allBoardsOver wS3.games = true) ∧
    (wS3.status = GStatus.over →
      ((wS3.winner = none ↔ wS3.xScore = wS3.oScore) ∧
       (wS3.xScore > wS3.oScore → wS3.winner = wS3.x) ∧
       (wS3.oScore > wS3.xScore → wS3.winner = wS3.o))) :=
  qttt_c5 wS2 wMv1 0 1 rfl rfl rfl

end QT

namespace QT

/-! ### Claim C6 -/

theorem qJoin_publiclyVisible (u : QGame) (p : Player) :
    (qJoin u p).1.publiclyVisible = u.publiclyVisible := by
  unfold qJoin qJoin.joinStatusUpdate
  by_cases h1 : u.x = some p ∨ u.o = some p
  · rw [if_pos h1]
  · rw [if_neg h1]
    by_cases h2 : u.x = none
    · rw [if_pos h2]
      show (if _ then _ else _ : QGame).publiclyVisible = _
      split <;> rfl
    · rw [if_neg h2]
      by_cases h3 : u.o = none
      · rw [if_pos h3]
        show (if _ then _ else _ : QGame).publiclyVisible = _
        split <;> rfl
      · rw [if_neg h3]

theorem vis_mono_leave (u : QGame) (p : Player) (b : BoardId) (r c : Fin 3)
    (hI : InvP u) (h : visAt u b r c = true) : visAt (qLeave u p).1 b r c = true := by
  unfold qLeave
  by_cases h1 : u.x ≠ some p ∧ u.o ≠ some p
  · rw [if_pos h1]; exact h
  rw [if_neg h1]
  by_cases h2 : u.status = GStatus.inProgress
  · rw [if_pos h2]
    by_cases h3 : u.x = some p
    · rw [if_pos h3]; exact h
    · rw [if_neg h3]; exact h
  rw [if_neg h2]
  by_cases h4 : u.status = GStatus.waitingToStart
  · rw [if_pos h4]
    obtain ⟨hvf, _, _⟩ := hI.1 h4
    exact absurd h (by rw [hvf b r c]; simp)
  · rw [if_neg h4]; exact h

theorem vis_mono_move (u : QGame) (gm : GameMoveArg) (b : BoardId) (r c : Fin 3)
    (h : visAt u b r c = true) : visAt (applyMove u gm).1 b r c = true := by
  cases hv2 : (applyMove u gm).2 with
  | some e =>
    rw [applyMove_err u gm (by rw [hv2]; simp)]
    exact h
  | none =>
    rw [applyMove_ok u gm hv2,
      visAt_eq_of _ _ (ce_publiclyVisible _), visAt_eq_of _ _ (cw_publiclyVisible _)]
    exact aa_vis_mono u gm.move.board gm.move.row gm.move.col
      (resolvedPiece u gm.playerID) b r c h

theorem vis_persist (s t : QGame) (b : BoardId) (r c : Fin 3)
    (hreach : Reachable s) (hst : StepStar s t) (hv : visAt s b r c = true) :
    visAt t b r c = true := by
  induction hst with
  | refl => exact hv
  | joinStep t' p prev ih =>
    rw [visAt_eq_of _ _ (qJoin_publiclyVisible t' p)]
    exact ih
  | leaveStep t' p prev ih =>
    exact vis_mono_leave t' p b r c
      (stepStar_inv _ _ (stepStar_trans _ _ _ hreach prev) inv_init) ih
  | moveStep t' gm prev ih =>
    exact vis_mono_move t' gm b r c ih

theorem vis_reject (t : QGame) (gm : GameMoveArg) (hI : InvP t)
    (hv : visAt t gm.move.board gm.move.row gm.move.col = true) :
    ((applyMove t gm).2).isSome = true := by
  rw [applyMove_snd]
  by_cases hip : t.status = GStatus.inProgress
  · obtain ⟨m, hm, hocc⟩ := hI.2.1 _ _ _ hv
    unfold validateMove
    by_cases h1 : boardClosed (getGame t.games gm.move.board) = true
    · rw [if_pos h1]; rfl
    rw [if_neg h1]
    have hconf : occupiedConflict t gm.move.board gm.move.row gm.move.col
        (resolvedPiece t gm.playerID) = true := by
      unfold occupiedConflict
      rw [List.any_eq_true]
      refine ⟨m, hm, ?_⟩
      simp [hocc, visAt] at *
      simp [hocc, hv]
    rw [if_pos hconf]
    rfl
  · exact validate_some_of_not_inProgress _ _ _ _ _ hip

/-- C6: in any reachable state in which the visibility flag at some
coordinate is true, the flag remains true in every state reachable from it
by further `join`/`leave`/`applyMove` calls (it is never reset), and any
move submitted at that coordinate in any such later state is rejected. -/
theorem qttt_c6 (s t : QGame) (b : BoardId) (r c : Fin 3) (gm : GameMoveArg)
    (hreach : Reachable s) (hvis : visAt s b r c = true) (hst : StepStar s t)
    (hb : gm.move.board = b) (hr : gm.move.row = r) (hc : gm.move.col = c) :
    visAt t b r c = true ∧ ((applyMove t gm).2).isSome = true := by
  subst hb; subst hr; subst hc
  have hvt := vis_persist s t gm.move.board gm.move.row gm.move.col hreach hst hvis
  refine ⟨hvt, ?_⟩
  exact vis_reject t gm
    (stepStar_inv _ _ (stepStar_trans _ _ _ hreach hst) inv_init) hvt

/-- A later attempt by X to replay the revealed cell (A,0,0). -/
def wMvAgain : GameMoveArg :=
  { playerID := 0, move := { board := BoardId.A, row := 0, col := 0, gamePiece := Mark.X } }

/-- C6 witness: after the concrete collision run the flag at (A,0,0) is
set, stays set, and X's attempt to replay that cell is rejected. -/
theorem qttt_c6_witness :
    visAt wS4 BoardId.A 0 0 = true ∧ ((applyMove wS4 wMvAgain).2).isSome = true :=
  qttt_c6 wS4 wS4 BoardId.A 0 0 wMvAgain
    (StepStar.moveStep _ _ wMv2 (StepStar.moveStep _ _ wMv1
      (StepStar.joinStep _ _ 1 (StepStar.joinStep _ _ 0 (StepStar.refl initialQGame)))))
    rfl (StepStar.refl wS4) rfl rfl rfl

end QT

namespace QT

/-! ### Claim C7 -/

theorem countP_disjoint_le {α : Type} (p q : α → Bool) (l : List α)
    (h : ∀ a, ¬(p a = true ∧ q a = true)) :
    l.countP p + l.countP q ≤ l.length := by
  induction l with
  | nil => simp
  | cons a l ih =>
    rw [List.countP_cons, List.countP_cons, List.length_cons]
    by_cases hp : p a = true
    · have hq : q a = false := by
        rcases Bool.eq_false_or_eq_true (q a) with h0 | h1
        · exact absurd ⟨hp, h0⟩ (h a)
        · exact h1
      simp [hp, hq]
      omega
    · have hp2 : p a = false := by simpa using hp
      by_cases hq : q a = true
      · simp [hp2, hq]
        omega
      · have hq2 : q a = false := by simpa using hq
        simp [hp2, hq2]
        omega

/-- C7: after every accepted move (seats filled by two distinct players),
`xScore` equals the number of boards that are terminal with the X player as
winner and `oScore` the number with the O player as winner — recomputed
counts, so drawn and in-progress boards contribute nothing, each board
counts for at most one side, and the two scores sum to at most 3. -/
theorem qttt_c7 (s : QGame) (gm : GameMoveArg) (px po : Player)
    (hx : s.x = some px) (ho : s.o = some po) (hne : px ≠ po)
    (hacc : (applyMove s gm).2 = none) :
    (applyMove s gm).1.xScore = (gamesList (applyMove s gm).1.games).countP
        (fun g => decide (g.status = GStatus.over ∧ g.winner = some px)) ∧
    (applyMove s gm).1.oScore = (gamesList (applyMove s gm).1.games).countP
        (fun g => decide (g.status = GStatus.over ∧ g.winner = some po)) ∧
    (applyMove s gm).1.xScore + (applyMove s gm).1.oScore ≤ 3 := by
  rw [applyMove_ok s gm hacc]
  have hgames : (checkForGameEnding (checkForWins (applyAccepted s gm.move.board gm.move.row
      gm.move.col (resolvedPiece s gm.playerID)))).games =
      (applyAccepted s gm.move.board gm.move.row gm.move.col
        (resolvedPiece s gm.playerID)).games := by
    rw [ce_games, cw_games]
  rw [hgames, ce_xScore, ce_oScore, cw_xScore, cw_oScore, aa_x, aa_o, hx, ho]
  refine ⟨rfl, ?_, ?_⟩
  · congr 1
    funext g
    refine decide_eq_decide.mpr ?_
    constructor
    · rintro ⟨h1, _, h3⟩
      exact ⟨h1, h3⟩
    · rintro ⟨h1, h3⟩
      refine ⟨h1, ?_, h3⟩
      rw [h3]
      simp
      exact fun hcon => hne hcon.symm
  · have hd : ∀ g : TicTacToeGame,
        ¬((fun g => decide (g.status = GStatus.over ∧ g.winner = some px)) g = true ∧
          (fun g => decide (g.status = GStatus.over ∧
            ¬ g.winner = some px ∧ g.winner = some po)) g = true) := by
      intro g hcon
      have hp := of_decide_eq_true hcon.1
      have hq := of_decide_eq_true hcon.2
      exact hq.2.1 hp.2
    have hb := countP_disjoint_le _ _
      (gamesList (applyAccepted s gm.move.board gm.move.row gm.move.col
        (resolvedPiece s gm.playerID)).games) hd
    simpa using hb

/-- C7 witness: after X's accepted opening move the recomputed scores are
the (zero) counts of boards won by each seat. -/
theorem qttt_c7_witness :
    wS3.xScore = (gamesList wS3.games).countP
        (fun g => decide (g.status = GStatus.over ∧ g.winner = some 0)) ∧
    wS3.oScore = (gamesList wS3.games).countP
        (fun g => decide (g.status = GStatus.over ∧ g.winner = some 1)) ∧
    wS3.xScore + wS3.oScore ≤ 3 :=
  qttt_c7 wS2 wMv1 0 1 rfl rfl (by decide) rfl

/-! ### Claim C8 -/

/-- C8 counterexample: X's accepted opening move synthesizes two passes
(one to board B and one to board C), yet the global `_moveCount` rises by
exactly one — not by one per externally-originated move *plus* one per
synthesized pass, which would require an increase of three. -/
theorem qttt_c8_counterexample :
    (applyMove wS2 wMv1).2 = none ∧
    (getGame wS3.games BoardId.B).moves =
      (getGame wS2.games BoardId.B).moves ++ [SubMove.pass Mark.X] ∧
    (getGame wS3.games BoardId.C).moves =
      (getGame wS2.games BoardId.C).moves ++ [SubMove.pass Mark.X] ∧
    wS3.moveCount = wS2.moveCount + 1 ∧
    ¬ wS3.moveCount = wS2.moveCount + 3 := by
  exact ⟨rfl, rfl, rfl, rfl, by decide⟩

/-- C8 (amended): the global turn index is incremented exactly once per
accepted externally-originated move, whether or not that move caused a
collision; synthesized passes never touch the global index (the total
increase per accepted call is one, however many passes are synthesized). -/
theorem qttt_c8_amended (s : QGame) (gm : GameMoveArg)
    (hacc : (applyMove s gm).2 = none) :
    (applyMove s gm).1.moveCount = s.moveCount + 1 := by
  rw [applyMove_ok s gm hacc, ce_moveCount, cw_moveCount, aa_moveCount]

/-- C8 witness: the concrete accepted opening move advances the index from
0 to 1. -/
theorem qttt_c8_witness : wS3.moveCount = wS2.moveCount + 1 :=
  qttt_c8_amended wS2 wMv1 rfl

/-! ### Claim C9 -/

/-- A move submitted by player 2, who occupies neither seat of `wS2`. -/
def wMvP3 : GameMoveArg :=
  { playerID := 2, move := { board := BoardId.A, row := 0, col := 0, gamePiece := Mark.X } }

/-- C9 counterexample: in the joined match, player 2 occupies neither
seat, yet the submitted move is *not* rejected with the NotSeated error
(`PLAYER_NOT_IN_GAME`): the unseated player's mark is resolved to O and
the move is rejected as out-of-turn instead. -/
theorem qttt_c9_counterexample :
    wS2.status = GStatus.inProgress ∧
    ¬ wS2.x = some 2 ∧ ¬ wS2.o = some 2 ∧
    (applyMove wS2 wMvP3).2 = some QError.notYourTurn := by
  exact ⟨rfl, by decide, by decide, rfl⟩

/-- C9 (amended): `applyMove` performs no seating check at all — the move's
mark is derived solely from the submitting player's identity (X exactly
when seated as X, O otherwise, unseated players included), the
caller-supplied mark field is ignored entirely, and no call is ever
rejected with the NotSeated error. -/
theorem qttt_c9_amended (s : QGame) (gm : GameMoveArg) (mk : Mark) :
    applyMove s gm = applyMove s
      { playerID := gm.playerID,
        move := { board := gm.move.board, row := gm.move.row, col := gm.move.col,
                  gamePiece := mk } } ∧
    ¬ (applyMove s gm).2 = some QError.playerNotInGame ∧
    ((applyMove s gm).2 = none →
      (applyMove s gm).1.moves.getLast? =
        some { board := gm.move.board, row := gm.move.row, col := gm.move.col,
               gamePiece := resolvedPiece s gm.playerID }) := by
  refine ⟨rfl, ?_, ?_⟩
  · rw [applyMove_snd]
    unfold validateMove
    by_cases h1 : boardClosed (getGame s.games gm.move.board) = true
    · rw [if_pos h1]; simp
    rw [if_neg h1]
    by_cases h2 : occupiedConflict s gm.move.board gm.move.row gm.move.col
        (resolvedPiece s gm.playerID) = true
    · rw [if_pos h2]; simp
    rw [if_neg h2]
    by_cases h3 : resolvedPiece s gm.playerID ≠
        (if s.moveCount % 2 = 0 then Mark.X else Mark.O)
    · rw [if_pos h3]; simp
    rw [if_neg h3]
    by_cases h4 : s.status ≠ GStatus.inProgress
    · rw [if_pos h4]; simp
    · rw [if_neg h4]; simp
  · intro hacc
    rw [applyMove_ok s gm hacc, ce_moves, cw_moves, aa_moves,
      List.getLast?_append_cons]
    rfl

/-- The same opening move as `wMv1` but with a lying mark field. -/
def wMv1Lie : GameMoveArg :=
  { playerID := 0, move := { board := BoardId.A, row := 0, col := 0, gamePiece := Mark.O } }

/-- C9 witness: X's opening move behaves identically whatever mark the
caller supplies, is never NotSeated-rejected, and the logged move carries
the seat-derived mark X. -/
theorem qttt_c9_witness :
    applyMove wS2 wMv1 = applyMove wS2 wMv1Lie ∧
    ¬ (applyMove wS2 wMv1).2 = some QError.playerNotInGame ∧
    wS3.moves.getLast? =
      some { board := BoardId.A, row := 0, col := 0, gamePiece := Mark.X } := by
  have T := qttt_c9_amended wS2 wMv1 Mark.O
  exact ⟨T.1, T.2.1, T.2.2 rfl⟩

/-! ### Claim C10 -/

/-- C10: in every reachable state the length of the global move log equals
the private global turn counter, and consequently the resolved mark of any
accepted move is determined by the parity of the global move-log length
(even length accepts an X move, odd an O move). -/
theorem qttt_c10 (s : QGame) (gm : GameMoveArg)
    (hreach : Reachable s) (hacc : (applyMove s gm).2 = none) :
    s.moves.length = s.moveCount ∧
    resolvedPiece s gm.playerID =
      (if s.moves.length % 2 = 0 then Mark.X else Mark.O) := by
  have hI := reachable_inv s hreach
  have hL : s.moves.length = s.moveCount := hI.2.2.1
  refine ⟨hL, ?_⟩
  have hvn : validateMove s gm.move.board gm.move.row gm.move.col
      (resolvedPiece s gm.playerID) = none := by
    rw [← applyMove_snd]; exact hacc
  obtain ⟨_, _, hpar, _⟩ := validate_none _ _ _ _ _ hvn
  rw [hL]
  exact hpar

/-- C10 witness: the joined state with its empty log accepts X's opening
move, matching the even parity. -/
theorem qttt_c10_witness :
    wS2.moves.length = wS2.moveCount ∧
    resolvedPiece wS2 wMv1.playerID =
      (if wS2.moves.length % 2 = 0 then Mark.X else Mark.O) :=
  qttt_c10 wS2 wMv1
    (StepStar.joinStep _ _ 1 (StepStar.joinStep _ _ 0 (StepStar.refl initialQGame)))
    rfl

end QT
